import Mathlib

/-!
# Verification of `caikit/runtime/http_server/pydantic_wrapper.py`

A shallow embedding of the pydantic wrapper module of the caikit HTTP
server: the data-model → pydantic type mapper and its process-wide
registry (`PYDANTIC_TO_DM_MAPPING`, `dataobject_to_pydantic`,
`_get_pydantic_type`), the instance converter (`pydantic_to_dataobject`),
the request decoder (`pydantic_from_request`,
`_parse_form_data_to_pydantic`, `_get_pydantic_subtypes`) and the
base64 before-validator (`_from_base64`).

Python's dynamically typed values are embedded as the inductive type `Py`.
Functions whose Python originals recurse through the heap (type mapping,
validation, conversion) are given explicit fuel, structurally recursive in
the fuel so that all definitions evaluate by kernel reduction.
-/

set_option autoImplicit false

/-- Python runtime values, as far as this module manipulates them:
JSON scalars, strings, bytes, Starlette `UploadFile` objects, lists,
plain dicts, pydantic `BaseModel` instances and caikit `DataBase`
(data-model) instances.  Model/data-model instances are identified by
their class name (the proto full name, which caikit uses as the generated
pydantic class name).  Floats are kept as opaque literal text: both
converters pass them through untouched and no claim computes with them. -/
inductive Py where
  | noneV : Py
  | boolV (b : Bool) : Py
  | intV (n : Int) : Py
  | floatV (lit : String) : Py
  | strV (s : String) : Py
  | bytesV (bs : List Nat) : Py
  | uploadFile (content : List Nat) : Py
  | enumMember (cls : String) (val : Int) : Py
  | listV (vs : List Py) : Py
  | dictV (fs : List (String × Py)) : Py
  | pyModel (cls : String) (fields : List (String × Py)) : Py
  | dmObj (cls : String) (fields : List (String × Py)) : Py
deriving BEq, Repr

/-- Pydantic-side type objects: the annotations the type mapper produces.
`bytes` stands for `Annotated[bytes, BeforeValidator(_from_base64)]`
(the metadata is stripped again by `get_type_hints`, so the bare
comparison `type_hint == bytes` of the form decoder still matches it).
`model` carries the construction counter that identifies the Python
object created by the `type(...)` call, the class name and the field
annotations. -/
inductive PTy where
  | noneT : PTy
  | boolT : PTy
  | intT : PTy
  | floatT : PTy
  | strT : PTy
  | bytesT : PTy
  | dictT : PTy
  | enumT (cls : String) (members : List Int) : PTy
  | listT (elem : PTy) : PTy
  | mapT (key val : PTy) : PTy
  | unionT (args : List PTy) : PTy
  | model (id : Nat) (cls : String) (fields : List (String × PTy)) : PTy
deriving BEq, Repr

/-- Data-model-side type annotations, as `get_type_hints` reports them on a
caikit `DataBase` class.  A nested data-model class is referenced by name
(`dataClass`), resolved through a class environment, which lets the
embedding express self-referential records the way Python classes can be
self-referential. -/
inductive DMTy where
  | npIntT : DMTy
  | npFloatT : DMTy
  | noneT : DMTy
  | boolT : DMTy
  | intT : DMTy
  | floatT : DMTy
  | strT : DMTy
  | bytesT : DMTy
  | jsonDictT : DMTy
  | enumT (cls : String) (members : List Int) : DMTy
  | dataClass (cls : String) : DMTy
  | annotated (inner : DMTy) : DMTy
  | unionT (args : List DMTy) : DMTy
  | listT (elem : DMTy) : DMTy
  | mapT (key val : DMTy) : DMTy
deriving BEq, Repr

/-- The declared fields of every `DataBase` class in scope, by class name
(what `get_type_hints(dm_class)` reflects). -/
abbrev ClassEnv := List (String × List (String × DMTy))

/-- First-match association-list lookup: Python `dict` lookup by key. -/
def alookup {β : Type} : List (String × β) → String → Option β
  | [], _ => Option.none
  | (k', v) :: rest, k => if k' = k then some v else alookup rest k

/-- Python `dict` assignment `d[k] = v`: overwrites an existing binding in
place, otherwise appends (insertion order preserved). -/
def dictSet {β : Type} : List (String × β) → String → β → List (String × β)
  | [], k, v => [(k, v)]
  | (k', v') :: rest, k, v =>
    if k' = k then (k, v) :: rest else (k', v') :: dictSet rest k v

/-- Python `needle in hay` on strings (substring containment). -/
def strContains (hay needle : String) : Bool :=
  (hay.data.tails).any (fun suf => needle.data.isPrefixOf suf)

/-- `key.split(".")`, character by character: splitting the empty string
yields `[""]`, and leading/trailing/adjacent dots yield empty segments,
exactly as in Python. -/
def splitDotAux : List Char → List Char → List String
  | [], acc => [⟨acc.reverse⟩]
  | c :: rest, acc =>
    if c = '.' then (⟨acc.reverse⟩ : String) :: splitDotAux rest []
    else splitDotAux rest (c :: acc)

def pySplitDot (s : String) : List String :=
  splitDotAux s.data []

/-- ASCII lower-casing (`str.lower()` as far as the accepted boolean
spellings need). -/
def asciiLower (s : String) : String :=
  ⟨s.data.map fun c =>
    if 'A' ≤ c ∧ c ≤ 'Z' then Char.ofNat (c.toNat + 32) else c⟩

/-- Decimal digits of a natural number (structural in a fuel bound so the
kernel can evaluate it). -/
def natReprAux : Nat → Nat → List Char
  | 0, _ => []
  | fuel + 1, n =>
    if n < 10 then [Char.ofNat (48 + n)]
    else natReprAux fuel (n / 10) ++ [Char.ofNat (48 + n % 10)]

def natRepr (n : Nat) : String :=
  ⟨natReprAux (n + 1) n⟩

/-! ## `base64.b64decode` and `_from_base64` -/

/-- Value of one standard-alphabet base64 character. -/
def b64digit (c : Char) : Option Nat :=
  if 'A' ≤ c ∧ c ≤ 'Z' then some (c.toNat - 'A'.toNat)
  else if 'a' ≤ c ∧ c ≤ 'z' then some (c.toNat - 'a'.toNat + 26)
  else if '0' ≤ c ∧ c ≤ '9' then some (c.toNat - '0'.toNat + 52)
  else if c = '+' then some 62
  else if c = '/' then some 63
  else Option.none

/-- The decoder loop of CPython's `binascii.a2b_base64` in non-strict
mode, one character at a time over (`quad_pos`, `leftchar`, `pads`) with
the decoded bytes accumulated in reverse:

* a pad character seen with `quad_pos ≥ 2` increments `pads` and, once
  `quad_pos + pads ≥ 4`, the pad sequence is complete and decoding stops
  *successfully* — anything after it is ignored; an earlier pad character
  is skipped (`quad_pos < 2` short-circuits before the increment);
* a character outside the base64 alphabet is silently skipped (and does
  not reset `pads`);
* a data character resets `pads` and advances the quad state machine,
  emitting `(leftchar << 2) | (d >> 4)`, `(leftchar << 4) | (d >> 2)`,
  `(leftchar << 6) | d` on the second, third and fourth position;
* when the input ends mid-quad (`quad_pos ≠ 0`) the decoder raises
  `binascii.Error` ("Incorrect padding", or the invalid-number-of-data-
  characters error for `quad_pos = 1`), modelled as `Option.none`. -/
def a2b_base64 : List Char → Nat → Nat → Nat → List Nat → Option (List Nat)
  | [], quadPos, _, _, acc =>
    if quadPos = 0 then some acc.reverse else Option.none
  | c :: rest, quadPos, leftchar, pads, acc =>
    if c = '=' then
      if 2 ≤ quadPos then
        if 4 ≤ quadPos + (pads + 1) then some acc.reverse
        else a2b_base64 rest quadPos leftchar (pads + 1) acc
      else a2b_base64 rest quadPos leftchar pads acc
    else
      match b64digit c with
      | Option.none => a2b_base64 rest quadPos leftchar pads acc
      | some d =>
        match quadPos with
        | 0 => a2b_base64 rest 1 d 0 acc
        | 1 => a2b_base64 rest 2 (d % 16) 0 ((leftchar * 4 + d / 16) :: acc)
        | 2 => a2b_base64 rest 3 (d % 4) 0 ((leftchar * 16 + d / 4) :: acc)
        | _ => a2b_base64 rest 0 0 0 ((leftchar * 64 + d) :: acc)

/-- `base64.b64decode(s.encode("utf-8"))` with the default
`validate=False`: runs the lenient `binascii.a2b_base64` loop above, so
e.g. `"="`, `"===="` and `"????"` decode to `b""`, `"ab=="`, `"ab==="`
and `"ab==cd"` decode to `b"i"`, while `"abc"` and `"ab="` raise. -/
def b64decode (s : String) : Option (List Nat) :=
  a2b_base64 s.data 0 0 0 []

/-- `_from_base64(data)`: if the value is a `str`, base64-decode it (a
`binascii.Error` escapes the validator and becomes a pydantic validation
error, modelled as `Option.none`); any other value is returned unchanged. -/
def from_base64 (data : Py) : Option Py :=
  match data with
  | .strV s => (b64decode s).map Py.bytesV
  | v => some v

/-! ## `json.loads` -/

/-- What the recursive-descent JSON reader is currently parsing. -/
inductive JMode where
  | val : JMode
  | arrItems : JMode
  | objItems : JMode
deriving BEq, Repr

/-- Heterogeneous parse results for `jsonStep`. -/
inductive JRes where
  | v (x : Py) : JRes
  | items (xs : List Py) : JRes
  | members (fs : List (String × Py)) : JRes
deriving BEq, Repr

def jsonWs : List Char → List Char
  | c :: rest => if c = ' ' ∨ c = '\t' ∨ c = '\n' ∨ c = '\r' then jsonWs rest else c :: rest
  | [] => []

/-- Read a JSON string body up to the closing quote.  Common escapes are
supported; `\uXXXX` escapes are not modelled (no input here uses them). -/
def jsonString : List Char → Option (String × List Char)
  | [] => Option.none
  | c :: rest =>
    if c = '"' then some ("", rest)
    else if c = '\\' then
      match rest with
      | e :: rest' =>
        let esc : Option Char :=
          if e = '"' then some '"' else if e = '\\' then some '\\'
          else if e = '/' then some '/' else if e = 'n' then some '\n'
          else if e = 't' then some '\t' else if e = 'r' then some '\r'
          else Option.none
        match esc with
        | some ch => (jsonString rest').map (fun p => (⟨ch :: p.1.data⟩, p.2))
        | Option.none => Option.none
      | [] => Option.none
    else (jsonString rest).map (fun p => (⟨c :: p.1.data⟩, p.2))

def isDigitCh (c : Char) : Bool := '0' ≤ c ∧ c ≤ '9'

def digitsToNat : List Char → Nat
  | cs => cs.foldl (fun acc c => acc * 10 + (c.toNat - '0'.toNat)) 0

/-- Read a JSON number.  Integers become `Py.intV`; numbers with a
fraction or exponent part are kept as opaque `Py.floatV` literals. -/
def jsonNumber (cs : List Char) : Option (Py × List Char) :=
  let (neg, cs1) := match cs with
    | '-' :: rest => (true, rest)
    | _ => (false, cs)
  let ds := cs1.takeWhile isDigitCh
  let rest := cs1.dropWhile isDigitCh
  if ds.isEmpty then Option.none
  else
    match rest with
    | '.' :: _ =>
      let frac := rest.drop 1 |>.takeWhile isDigitCh
      let rest2 := rest.drop 1 |>.dropWhile isDigitCh
      if frac.isEmpty then Option.none
      else some (.floatV ⟨(if neg then ['-'] else []) ++ ds ++ '.' :: frac⟩, rest2)
    | 'e' :: _ => Option.none
    | 'E' :: _ => Option.none
    | _ =>
      let n : Int := Int.ofNat (digitsToNat ds)
      some (.intV (if neg then -n else n), rest)

/-- One fuel-indexed step of the JSON reader: parses a value, the items of
an array after `[`, or the members of an object after an opening brace,
returning the parse and the unconsumed characters. -/
def jsonStep : Nat → JMode → List Char → Option (JRes × List Char)
  | 0, _, _ => Option.none
  | fuel + 1, .val, cs =>
    match jsonWs cs with
    | 'n' :: 'u' :: 'l' :: 'l' :: rest => some (.v .noneV, rest)
    | 't' :: 'r' :: 'u' :: 'e' :: rest => some (.v (.boolV true), rest)
    | 'f' :: 'a' :: 'l' :: 's' :: 'e' :: rest => some (.v (.boolV false), rest)
    | '"' :: rest => (jsonString rest).map (fun p => (.v (.strV p.1), p.2))
    | '[' :: rest =>
      (match jsonWs rest with
       | ']' :: rest' => some (.v (.listV []), rest')
       | _ =>
         (jsonStep fuel .arrItems rest).bind fun pr =>
           match pr.1 with
           | .items xs => some (.v (.listV xs), pr.2)
           | _ => Option.none)
    | '\x7b' :: rest =>
      (match jsonWs rest with
       | '\x7d' :: rest' => some (.v (.dictV []), rest')
       | _ =>
         (jsonStep fuel .objItems rest).bind fun pr =>
           match pr.1 with
           | .members fs => some (.v (.dictV fs), pr.2)
           | _ => Option.none)
    | cs' => (jsonNumber cs').map (fun p => (.v p.1, p.2))
  | fuel + 1, .arrItems, cs =>
    (jsonStep fuel .val cs).bind fun pr =>
      match pr.1 with
      | .v x =>
        (match jsonWs pr.2 with
         | ',' :: rest =>
           (jsonStep fuel .arrItems rest).bind fun pr' =>
             match pr'.1 with
             | .items xs => some (.items (x :: xs), pr'.2)
             | _ => Option.none
         | ']' :: rest => some (.items [x], rest)
         | _ => Option.none)
      | _ => Option.none
  | fuel + 1, .objItems, cs =>
    match jsonWs cs with
    | '"' :: rest =>
      (jsonString rest).bind fun kp =>
        match jsonWs kp.2 with
        | ':' :: rest' =>
          (jsonStep fuel .val rest').bind fun pr =>
            match pr.1 with
            | .v x =>
              (match jsonWs pr.2 with
               | ',' :: rest'' =>
                 (jsonStep fuel .objItems rest'').bind fun pr' =>
                   match pr'.1 with
                   | .members fs => some (.members ((kp.1, x) :: fs), pr'.2)
                   | _ => Option.none
               | '\x7d' :: rest'' => some (.members [(kp.1, x)], rest'')
               | _ => Option.none)
            | _ => Option.none
        | _ => Option.none
    | _ => Option.none

def JRes.toPy : JRes → Py
  | .v x => x
  | .items xs => .listV xs
  | .members fs => .dictV fs

/-- `json.loads(s)`: parse one JSON value; leading and trailing whitespace
is allowed, anything else trailing is an error. -/
def jsonLoads (s : String) : Option Py :=
  (jsonStep (4 * s.length + 4) .val s.data).bind fun pr =>
    match jsonWs pr.2 with
    | [] => some pr.1.toPy
    | _ => Option.none

/-! ## The type mapper and `PYDANTIC_TO_DM_MAPPING` -/

/-- The process-wide `PYDANTIC_TO_DM_MAPPING` dict plus the construction
counter.  The Python module keys one dict by class objects in both
directions; since the two key spaces (data-model classes, generated
pydantic classes) are disjoint, they are modelled as two association
lists.  `counter` numbers `type(...)` constructions so that "identical
Python object" is expressible as equality of the stored id. -/
structure MapState where
  registry : List (String × PTy)
  reverse : List (String × String)
  counter : Nat
deriving BEq, Repr

/-- `PYDANTIC_TO_DM_MAPPING`'s initial entries: the four primitive
sequence wrappers map to plain list types. -/
def initState : MapState :=
  { registry := [("StrSequence", .listT .strT), ("IntSequence", .listT .intT),
                 ("FloatSequence", .listT .floatT), ("BoolSequence", .listT .boolT)],
    reverse := [], counter := 0 }

/-- Thread `_get_pydantic_type` over the members of a `Union[...]`
annotation, left to right (`tuple(_get_pydantic_type(arg) for arg in
get_args(field_type))`). -/
def threadTypes (g : DMTy → MapState → Option (PTy × MapState)) :
    List DMTy → MapState → Option (List PTy × MapState)
  | [], st => some ([], st)
  | t :: ts, st =>
    (g t st).bind fun (p, st') =>
      (threadTypes g ts st').map fun (ps, st'') => (p :: ps, st'')

/-- Thread `_get_pydantic_type` over the declared fields of a data-model
class, in declaration order (the `annotations = {...}` comprehension of
`dataobject_to_pydantic`). -/
def threadFields (g : DMTy → MapState → Option (PTy × MapState)) :
    List (String × DMTy) → MapState → Option (List (String × PTy) × MapState)
  | [], st => some ([], st)
  | (n, t) :: fs, st =>
    (g t st).bind fun (p, st') =>
      (threadFields g fs st').map fun (ps, st'') => ((n, p) :: ps, st'')

/-- One unfolding of `_get_pydantic_type(field_type)`, given the next
lower fuel level's two mapper functions.  The source's match arms, in
order: numpy integer/floating leaves, `bytes` (annotated with the base64
before-validator), the primitive tuple, enums, `DataBase` subclasses
(recursing through `dataobject_to_pydantic`), `Annotated[...]` unwrap,
`Union[...]`, `List[...]`, `Dict[...]`; anything else raises `TypeError`
(`Option.none`). -/
def getPTyStep (g : DMTy → MapState → Option (PTy × MapState))
    (d : String → MapState → Option (PTy × MapState)) :
    DMTy → MapState → Option (PTy × MapState)
  | .npIntT, st => some (.intT, st)
  | .npFloatT, st => some (.floatT, st)
  | .bytesT, st => some (.bytesT, st)
  | .intT, st => some (.intT, st)
  | .floatT, st => some (.floatT, st)
  | .boolT, st => some (.boolT, st)
  | .strT, st => some (.strT, st)
  | .jsonDictT, st => some (.dictT, st)
  | .noneT, st => some (.noneT, st)
  | .enumT cls members, st => some (.enumT cls members, st)
  | .dataClass cls, st => d cls st
  | .annotated inner, st => g inner st
  | .unionT args, st =>
    (threadTypes g args st).map fun (ps, st') => (.unionT ps, st')
  | .listT elem, st =>
    (g elem st).map fun (p, st') => (.listT p, st')
  | .mapT key val, st =>
    (g key st).bind fun (pk, st') =>
      (g val st').map fun (pv, st'') => (.mapT pk pv, st'')

/-- The tail of `dataobject_to_pydantic` once the annotations exist:
`type(ParentPydanticBaseModel)(name, bases, namespace)` constructs the
model (numbered by the construction counter) and the two registry
assignments store the forward and reverse mapping entries. -/
def registerModel (cls : String) (pr : List (String × PTy) × MapState) :
    PTy × MapState :=
  let m : PTy := .model pr.2.counter cls pr.1
  (m, { registry := dictSet pr.2.registry cls m,
        reverse := dictSet pr.2.reverse cls cls,
        counter := pr.2.counter + 1 })

/-- One unfolding of `dataobject_to_pydantic(dm_class)`: return the cached
model if the class is already a key of `PYDANTIC_TO_DM_MAPPING`
(which also collapses the four primitive-sequence aliases to their
pre-seeded list types); otherwise map every declared field type first
(the `annotations` comprehension), then construct the new model class and
only then store the forward and reverse registry entries. -/
def dataobjStep (env : ClassEnv)
    (g : DMTy → MapState → Option (PTy × MapState)) :
    String → MapState → Option (PTy × MapState) :=
  fun cls st =>
    match alookup st.registry cls with
    | some p => some (p, st)
    | Option.none =>
      match alookup env cls with
      | Option.none => Option.none
      | some fields => (threadFields g fields st).map (registerModel cls)

/-- The fuel-indexed pair (`_get_pydantic_type`, `dataobject_to_pydantic`):
each level is built from the previous level's functions, so the whole
family is structurally recursive in the fuel and kernel-reducible. -/
def mapperFuel (env : ClassEnv) : Nat →
    ((DMTy → MapState → Option (PTy × MapState)) ×
     (String → MapState → Option (PTy × MapState)))
  | 0 => (fun _ _ => Option.none, fun _ _ => Option.none)
  | fuel + 1 =>
    let prev := mapperFuel env fuel
    (getPTyStep prev.1 (dataobjStep env prev.1), dataobjStep env prev.1)

/-- `dataobject_to_pydantic(dm_class)` at the given fuel. -/
def dataobject_to_pydantic (env : ClassEnv) (fuel : Nat)
    (cls : String) (st : MapState) : Option (PTy × MapState) :=
  (mapperFuel env fuel).2 cls st

/-- `_get_pydantic_type(field_type)` at the given fuel. -/
def get_pydantic_type (env : ClassEnv) (fuel : Nat)
    (t : DMTy) (st : MapState) : Option (PTy × MapState) :=
  (mapperFuel env fuel).1 t st

/-! ## `pydantic_to_dataobject` (the Instance Converter) -/

/-- Python's `type(field_value) in PYDANTIC_TO_DM_MAPPING`: true exactly
for instances of generated pydantic model classes (keys of the reverse
half) and of data-model classes (keys of the forward half); plain lists,
dicts and scalars have unregistered types (`list`, `dict`, `int`, ...,
and `typing.List[str]` is a mapping *value*, never the type of a runtime
object). -/
def typeRegistered (st : MapState) (v : Py) : Bool :=
  match v with
  | .pyModel cls _ => (alookup st.reverse cls).isSome
  | .dmObj cls _ => (alookup st.registry cls).isSome
  | _ => false

/-- Map an `Option`-valued function over a list (the list comprehension
`[pydantic_to_dataobject(val) for val in field_value]`). -/
def optMapList (r : Py → Option Py) : List Py → Option (List Py)
  | [] => some []
  | v :: vs => (r v).bind fun w => (optMapList r vs).map fun ws => w :: ws

/-- Map an `Option`-valued function over dict/field values, keeping keys. -/
def optMapFields (r : Py → Option Py) :
    List (String × Py) → Option (List (String × Py))
  | [] => some []
  | (n, v) :: fs =>
    (r v).bind fun w => (optMapFields r fs).map fun ws => (n, w) :: ws

/-- The body of `pydantic_to_dataobject`'s field loop: a field value whose
type is a key of the mapping is converted recursively; a list whose
elements *all* have mapped types is converted element-wise (note:
vacuously true for the empty list); everything else — scalars, dicts,
mixed lists — passes through unchanged. -/
def convFieldStep (r : Py → Option Py) (st : MapState) (v : Py) : Option Py :=
  if typeRegistered st v then r v
  else
    match v with
    | .listV vs =>
      if vs.all (typeRegistered st) then (optMapList r vs).map Py.listV
      else some (.listV vs)
    | w => some w

/-- One unfolding of `pydantic_to_dataobject(pydantic_model)`: look up the
data-model class to build from `type(pydantic_model)`, convert each field
with the loop above, and invoke the data-model constructor with the
resulting keyword set (the constructor is an external collaborator; it is
modelled as building the record from exactly the keywords it is given).
Any other argument is not iterable the way the field loop requires and
raises, modelled as `Option.none`. -/
def p2dStep (r : Py → Option Py) (st : MapState) : Py → Option Py
  | .pyModel cls fs =>
    (alookup st.reverse cls).bind fun dmCls =>
      (optMapFields (convFieldStep r st) fs).map fun kwargs => .dmObj dmCls kwargs
  | _ => Option.none

/-- `pydantic_to_dataobject` at the given fuel. -/
def pydantic_to_dataobject (st : MapState) : Nat → Py → Option Py
  | 0 => fun _ => Option.none
  | fuel + 1 => p2dStep (pydantic_to_dataobject st fuel) st

/-- Names of the four primitive-sequence alias wrappers. -/
def aliasNames : List String :=
  ["StrSequence", "IntSequence", "FloatSequence", "BoolSequence"]

/-- Modelled from the spec: the inverse direction `fromDataModel` of the
Instance Converter (§4.4, §8) is not part of
`src/caikit/runtime/http_server/pydantic_wrapper.py`; per the spec it
walks a data-model instance and produces the corresponding validated
schema instance: nested data-model objects become instances of their
generated pydantic models field by field, a primitive-sequence alias
wrapper collapses to the bare list of its `values` field (§3 alias
collapse), lists and dicts convert element-wise, and every other value
passes through unchanged. -/
def fdmStep (r : Py → Option Py) : Py → Option Py
  | .dmObj cls fs =>
    if aliasNames.contains cls then
      match alookup fs "values" with
      | some (.listV vs) => (optMapList r vs).map Py.listV
      | _ => Option.none
    else
      (optMapFields r fs).map fun gs => .pyModel cls gs
  | .listV vs => (optMapList r vs).map Py.listV
  | .dictV fs => (optMapFields r fs).map Py.dictV
  | v => some v

/-- Modelled from the spec: `fromDataModel` at the given fuel (see
`fdmStep`). -/
def fromDataModel : Nat → Py → Option Py
  | 0 => fun _ => Option.none
  | fuel + 1 => fdmStep (fromDataModel fuel)

/-! ## `_get_pydantic_subtypes` -/

/-- `get_type_hints(pydantic_model).get(current_key)`: field annotations
of a generated model by name; builtin classes report no annotations.
(`get_type_hints` on a bare generic alias such as `List[int]` raises
`TypeError` in Python; no key resolved in this development descends
through one, so it is modelled as the empty hint dict.) -/
def typeHintsGet (m : PTy) (k : String) : Option PTy :=
  match m with
  | .model _ _ fields => alookup fields k
  | _ => Option.none

/-- First non-falsy recursion result of the union arm's
`for arg in get_args(current_type): if result := ...` loop. -/
def firstHit (g : PTy → List PTy) : List PTy → List PTy
  | [] => []
  | a :: args =>
    match g a with
    | [] => firstHit g args
    | r => r

/-- `_get_pydantic_subtypes(pydantic_model, keys)`: with no keys left the
singleton `[pydantic_model]`; otherwise resolve the first segment in the
model's type hints (missing → falsy `[]`, reported [], where the source
returns `[]` or implicitly `None` — both falsy to the caller); a `Union`
at the final segment yields all its alternatives (`get_args`, a tuple),
a `Union` with segments remaining tries each alternative and keeps the
first non-empty resolution; any other hint recurses directly. -/
def get_pydantic_subtypes : List String → PTy → List PTy
  | [], m => [m]
  | k :: ks, m =>
    match typeHintsGet m k with
    | Option.none => []
    | some (.unionT args) =>
      if ks.isEmpty then args
      else firstHit (fun a => get_pydantic_subtypes ks a) args
    | some t => get_pydantic_subtypes ks t

/-! ## The form-data decoder -/

/-- The runtime object the decoder's `model_type_hints` variable holds:
either the list/tuple of candidate types that `_get_pydantic_subtypes`
returned, or a single type object (after a reassignment from
`get_args(...)[0]`). -/
inductive PyTyObj where
  | tyList (ts : List PTy) : PyTyObj
  | ty (t : PTy) : PyTyObj
deriving BEq, Repr

inductive PyOrigin where
  | originList : PyOrigin
  | originUnion : PyOrigin
  | originDict : PyOrigin
deriving BEq, Repr

/-- `get_origin` applied to the decoder's `model_type_hints` object.  A
plain `list` (or tuple) *instance* has no `__origin__`, so `get_origin`
returns `None` for the candidate container; only a bare generic alias
would report `list`/`Union`/`dict`. -/
def py_get_origin : PyTyObj → Option PyOrigin
  | .tyList _ => Option.none
  | .ty t =>
    match t with
    | .listT _ => some .originList
    | .unionT _ => some .originUnion
    | .mapT _ _ => some .originDict
    | _ => Option.none

/-- `get_args` applied to the same object: empty tuple for anything that
is not a generic alias. -/
def py_get_args : PyTyObj → List PTy
  | .tyList _ => []
  | .ty t =>
    match t with
    | .listT e => [e]
    | .unionT args => args
    | .mapT k v => [k, v]
    | _ => []

/-- Iterating `for type_hint in model_type_hints`: yields the members of
the candidate container.  (Iterating a bare type object would raise
`TypeError`; that state is unreachable because `py_get_origin` of the
container is always `None`, so the reassignments never fire.) -/
def pyElems : PyTyObj → List PTy
  | .tyList ts => ts
  | .ty _ => []

/-- Modelled from the spec: `update_dict_at_dot_path` lives in
`caikit.runtime.http_server.utils`, which is not under `src/`.  Per the
spec (§4.3 step 3), the write descends the dotted path through nested
dicts, creating empty dicts for missing intermediate segments, and fails
— returns `False`, modelled `Option.none` — when a value is already
present at the target path or when an intermediate segment holds a
non-dict value. -/
def updatePath : Py → List String → Py → Option Py
  | .dictV fs, [k], v =>
    (match alookup fs k with
     | some _ => Option.none
     | Option.none => some (.dictV (fs ++ [(k, v)])))
  | .dictV fs, k :: ks, v =>
    (match alookup fs k with
     | some (.dictV sub) =>
       (updatePath (.dictV sub) ks v).map fun sub' => .dictV (dictSet fs k sub')
     | some _ => Option.none
     | Option.none =>
       (updatePath (.dictV []) ks v).map fun sub' => .dictV (fs ++ [(k, sub')]))
  | _, _, _ => Option.none

/-- `update_dict_at_dot_path(raw_model_obj, key, value)` (spec-modelled,
see `updatePath`). -/
def update_dict_at_dot_path (d : Py) (key : String) (v : Py) : Option Py :=
  updatePath d (pySplitDot key) v

/-- `inspect.isclass(type_hint) and issubclass(type_hint, BaseModel)`:
only the generated model classes qualify (generic aliases are not
classes; `str`, `int`, ... are classes but not `BaseModel` subclasses). -/
def isModelClass : PTy → Bool
  | .model _ _ _ => true
  | _ => false

/-- `type_hint == bytes` (the annotated-bytes leaf, whose metadata
`get_type_hints` already stripped). -/
def isBytesTy : PTy → Bool
  | .bytesT => true
  | _ => false

/-- The decoder's JSON probe over `raw_objects`: `raw_objects[n] =
json.loads(sub_obj)` mutates the list in place element by element and
breaks at the first `JSONDecodeError`, so elements before the failure
stay replaced for the next candidate.  Returns the mutated list and
whether every element parsed.  (`json.loads` of an `UploadFile` raises
`TypeError` in Python; modelled as a failed parse, unreachable for the
claims.) -/
def mutateParseJson : List Py → List Py × Bool
  | [] => ([], true)
  | v :: rest =>
    match v with
    | .strV s =>
      (match jsonLoads s with
       | some j =>
         let pr := mutateParseJson rest
         (j :: pr.1, pr.2)
       | Option.none => (v :: rest, false))
    | _ => (v :: rest, false)

/-- The bytes arm: `raw_objects[n] = sub_obj.file.read()` for each
`UploadFile`; text values pass through. -/
def readFiles : List Py → List Py :=
  List.map fun v =>
    match v with
    | .uploadFile content => .bytesV content
    | w => w

/-- Result of processing one form key's candidate loop. -/
inductive KeyRes where
  | wrote (pending : Py) : KeyRes
  | valueExists : KeyRes
  | noParse : KeyRes
deriving BEq, Repr

/-- The tail of the loop body once a candidate accepts: reduce to
`raw_objects[0]` when the request is not a list, write into the pending
object at the dotted key (raising 422 "value already exists" when the
write reports failure) and break out of the loop. -/
def writeBack (pending : Py) (key : String) (isList : Bool)
    (raws : List Py) : KeyRes :=
  let value : Py := if isList then .listV raws else raws.headD .noneV
  match update_dict_at_dot_path pending key value with
  | some pending' => .wrote pending'
  | Option.none => .valueExists

/-- `for type_hint in model_type_hints`: a model candidate JSON-probes the
raw values and is skipped — with the probe's partial mutation kept — if
any value fails to parse; a bytes candidate drains `UploadFile`s; any
other candidate takes the raw values as they are.  The first candidate
that is not skipped writes and breaks; an exhausted loop leaves the key
unparsed. -/
def candidateLoop (pending : Py) (key : String) (isList : Bool) :
    List PTy → List Py → KeyRes
  | [], _ => .noParse
  | th :: rest, raws =>
    if isModelClass th then
      let pr := mutateParseJson raws
      if pr.2 then writeBack pending key isList pr.1
      else candidateLoop pending key isList rest pr.1
    else if isBytesTy th then writeBack pending key isList (readFiles raws)
    else writeBack pending key isList raws

/-- The decode failures the form loop raises (all HTTP 422). -/
inductive DErr where
  | unknownKey (key : String) : DErr
  | valueExists (key : String) : DErr
  | failedParse (key : String) : DErr
deriving BEq, Repr

/-- `if not raw_objects or (len(raw_objects) > 0 and not raw_objects[0])`:
the first raw value is falsy exactly for the empty string (an
`UploadFile` is truthy). -/
def isFalsy : Py → Bool
  | .strV s => s = ""
  | _ => false

/-- Process one `key in form_data.keys()` iteration of
`_parse_form_data_to_pydantic`: skip keys with no or a falsy first value;
resolve the dotted key to the candidate list (empty/`None` result →
"Unknown key", 422); compute `is_list` by applying `get_origin` to the
candidate *container* — a list instance, so the origin is always `None`
and the reassignments from `get_args` never fire; run the candidate
loop. -/
def handleKey (model : PTy) (pending : Py) (key : String)
    (raws : List Py) : Except DErr Py :=
  if raws.isEmpty || isFalsy (raws.headD .noneV) then .ok pending
  else
    let hints := get_pydantic_subtypes (pySplitDot key) model
    if hints.isEmpty then .error (.unknownKey key)
    else
      let mth : PyTyObj := .tyList hints
      let pr : Bool × PyTyObj :=
        if py_get_origin mth == some .originList then
          (true, .ty ((py_get_args mth).headD .noneT))
        else (false, mth)
      let isList := pr.1
      let mth := pr.2
      let mth : PyTyObj :=
        if py_get_origin mth == some .originUnion then .tyList (py_get_args mth)
        else mth
      match candidateLoop pending key isList (pyElems mth) raws with
      | .wrote pending' => .ok pending'
      | .valueExists => .error (.valueExists key)
      | .noParse => .error (.failedParse key)

/-- The `for key in form_data.keys()` loop, folding the flat form into
the nested `raw_model_obj`. -/
def foldFormKeys (model : PTy) : List (String × List Py) → Py → Except DErr Py
  | [], pending => .ok pending
  | (key, raws) :: rest, pending =>
    match handleKey model pending key raws with
    | .ok pending' => foldFormKeys model rest pending'
    | .error e => .error e

/-- Starlette's `FormData` multi-dict built from the submitted
`key=value` pairs in order: `.keys()` yields each distinct key once, at
its first occurrence, and `.getlist(key)` yields all values submitted
under that key in submission order. -/
def mkFormData (pairs : List (String × Py)) : List (String × List Py) :=
  pairs.foldl
    (fun acc p =>
      if (alookup acc p.1).isSome then
        acc.map fun q => if q.1 = p.1 then (q.1, q.2 ++ [p.2]) else q
      else acc ++ [(p.1, [p.2])])
    []

/-! ## pydantic `model_validate` (v2, lax mode) -/

/-- One field-level validation error: location path and error kind. -/
structure VErr where
  loc : List String
  kind : String
deriving BEq, Repr

/-- Prefix a path segment onto every error of a nested validation. -/
def pushLoc (seg : String) : Except (List VErr) Py → Except (List VErr) Py
  | .ok v => .ok v
  | .error es => .error (es.map fun e => { e with loc := seg :: e.loc })

def vfail (kind : String) : Except (List VErr) Py := .error [⟨[], kind⟩]

/-- Lax `str → int` coercion: optional surrounding whitespace, optional
sign, at least one digit (pydantic v2 `int_parsing`). -/
def parseIntLax (s : String) : Option Int :=
  let cs := (s.data.dropWhile (fun c => c = ' ')).reverse
  let cs := (cs.dropWhile (fun c => c = ' ')).reverse
  let pr : Bool × List Char :=
    match cs with
    | '-' :: rest => (true, rest)
    | '+' :: rest => (false, rest)
    | _ => (false, cs)
  if pr.2.isEmpty ∨ pr.2.any (fun c => ¬ isDigitCh c) then Option.none
  else
    let n : Int := Int.ofNat (digitsToNat pr.2)
    some (if pr.1 then -n else n)

/-- Lax `str → bool` coercion (pydantic v2's accepted spellings,
lower-cased). -/
def parseBoolLax (s : String) : Option Bool :=
  let t := asciiLower s
  if ["true", "t", "yes", "y", "on", "1"].contains t then some true
  else if ["false", "f", "no", "n", "off", "0"].contains t then some false
  else Option.none

/-- Validate the members of a list input. -/
def validateItems (r : PTy → Py → Except (List VErr) Py) (t : PTy) :
    List Py → Nat → Except (List VErr) (List Py)
  | [], _ => .ok []
  | v :: vs, i =>
    match pushLoc (natRepr i) (r t v) with
    | .ok w =>
      (match validateItems r t vs (i + 1) with
       | .ok ws => .ok (w :: ws)
       | .error es => .error es)
    | .error es => .error es

/-- Validate the entries of a map input (values against the value type;
string keys are the only key shape that reaches this code). -/
def validateEntries (r : PTy → Py → Except (List VErr) Py) (tv : PTy) :
    List (String × Py) → Except (List VErr) (List (String × Py))
  | [] => .ok []
  | (k, v) :: fs =>
    match pushLoc k (r tv v) with
    | .ok w =>
      (match validateEntries r tv fs with
       | .ok ws => .ok ((k, w) :: ws)
       | .error es => .error es)
    | .error es => .error es

/-- Validate declared model fields against the input dict.  Every
generated model declares `name: None` class defaults, so a missing field
silently becomes `None` (defaults are not validated in pydantic v2). -/
def validateModelFields (r : PTy → Py → Except (List VErr) Py)
    (input : List (String × Py)) :
    List (String × PTy) → Except (List VErr) (List (String × Py))
  | [] => .ok []
  | (n, t) :: fs =>
    let fieldRes : Except (List VErr) Py :=
      match alookup input n with
      | some v => pushLoc n (r t v)
      | Option.none => .ok .noneV
    match fieldRes with
    | .ok w =>
      (match validateModelFields r input fs with
       | .ok ws => .ok ((n, w) :: ws)
       | .error es => .error es)
    | .error es => .error es

/-- `extra="forbid"`: input keys that are not declared fields. -/
def extraKeys (fields : List (String × PTy)) (input : List (String × Py)) :
    List String :=
  (input.map Prod.fst).filter fun k => (alookup fields k).isNone

/-- First pass of pydantic v2's smart-union strategy: members whose type
matches the input's runtime type exactly, tried in declaration order. -/
def unionExact (t : PTy) (v : Py) : Bool :=
  match t, v with
  | .strT, .strV _ => true
  | .intT, .intV _ => true
  | .boolT, .boolV _ => true
  | .noneT, .noneV => true
  | .bytesT, .bytesV _ => true
  | .model _ cls _, .pyModel cls' _ => cls = cls'
  | _, _ => false

/-- Try union members in order, keeping the first success. -/
def unionTry (r : PTy → Py → Except (List VErr) Py) (v : Py)
    (keep : PTy → Bool) : List PTy → Option Py
  | [] => Option.none
  | t :: ts =>
    if keep t then
      match r t v with
      | .ok w => some w
      | .error _ => unionTry r v keep ts
    else unionTry r v keep ts

/-- One unfolding of pydantic v2 lax validation against an annotation.
Approximations that no claim exercises are noted inline. -/
def validateStep (r : PTy → Py → Except (List VErr) Py) :
    PTy → Py → Except (List VErr) Py
  | .noneT, v => match v with
    | .noneV => .ok .noneV
    | _ => vfail "none_required"
  | .boolT, v => (match v with
    | .boolV b => .ok (.boolV b)
    | .intV n => if n = 0 then .ok (.boolV false)
                 else if n = 1 then .ok (.boolV true) else vfail "bool_parsing"
    | .strV s => (match parseBoolLax s with
      | some b => .ok (.boolV b)
      | Option.none => vfail "bool_parsing")
    | _ => vfail "bool_type")
  | .intT, v => (match v with
    | .intV n => .ok (.intV n)
    | .strV s => (match parseIntLax s with
      | some n => .ok (.intV n)
      | Option.none => vfail "int_parsing")
    | _ => vfail "int_type")
  | .floatT, v => (match v with
    | .intV n => .ok (.intV n)
    | .floatV lit => .ok (.floatV lit)
    | .strV s => (match parseIntLax s with
      | some n => .ok (.intV n)
      | Option.none => vfail "float_parsing")
    | _ => vfail "float_type")
  | .strT, v => (match v with
    | .strV s => .ok (.strV s)
    | _ => vfail "string_type")
  | .bytesT, v =>
    (match from_base64 v with
     | Option.none => vfail "value_error.base64"
     | some v' => match v' with
       | .bytesV bs => .ok (.bytesV bs)
       | _ => vfail "bytes_type")
  | .dictT, v => (match v with
    | .dictV fs => .ok (.dictV fs)
    | _ => vfail "dict_type")
  | .enumT cls members, v => (match v with
    | .intV n => if members.contains n then .ok (.enumMember cls n) else vfail "enum"
    | .enumMember cls' n =>
      if cls = cls' then .ok (.enumMember cls' n) else vfail "enum"
    | _ => vfail "enum")
  | .listT t, v => (match v with
    | .listV vs => (validateItems r t vs 0).map Py.listV
    | _ => vfail "list_type")
  | .mapT _ tv, v => (match v with
    | .dictV fs => (validateEntries r tv fs).map Py.dictV
    | _ => vfail "dict_type")
  | .unionT args, v =>
    (match unionTry r v (fun t => unionExact t v) args with
     | some w => .ok w
     | Option.none =>
       match unionTry r v (fun _ => true) args with
       | some w => .ok w
       | Option.none => vfail "union_no_match")
  | .model _ cls fields, v => (match v with
    | .dictV input =>
      (match extraKeys fields input with
       | [] => (validateModelFields r input fields).map (Py.pyModel cls)
       | k :: _ => .error [⟨[k], "extra_forbidden"⟩])
    | .pyModel cls' gs =>
      if cls = cls' then .ok (.pyModel cls' gs) else vfail "model_type"
    | _ => vfail "model_type")

/-- `model_validate` (and nested validation) at the given fuel. -/
def validateV : Nat → PTy → Py → Except (List VErr) Py
  | 0 => fun _ _ => .error [⟨[], "recursion"⟩]
  | fuel + 1 => validateStep (validateV fuel)

/-! ## `_parse_form_data_to_pydantic` and `pydantic_from_request` -/

/-- A pydantic v2 `ValidationError` object: it exposes `errors()`,
`error_count()`, `json()` and `title` — and *no* `raw_errors` attribute
(that was the pydantic v1 API). -/
structure PydanticValidationError where
  errors : List VErr
deriving BEq, Repr

/-- Reading `err.raw_errors` from a pydantic v2 `ValidationError`: the
attribute does not exist, so the access raises `AttributeError`. -/
def getattr_raw_errors (_ : PydanticValidationError) : Option (List VErr) :=
  Option.none

/-- What a form decode surfaces to the caller: a validated instance, an
`HTTPException` (all raised with status 422), a `RequestValidationError`
carrying field errors, or an uncaught `AttributeError` escaping the
`except pydantic.ValidationError` handler. -/
inductive FormOutcome where
  | ok (instV : Py) : FormOutcome
  | httpError (status : Nat) (e : DErr) : FormOutcome
  | requestValidationError (errors : List VErr) : FormOutcome
  | attributeError (attr : String) : FormOutcome
deriving BEq, Repr

/-- `_parse_form_data_to_pydantic(pydantic_model, form_data)`: fold the
form keys into `raw_model_obj`, then `pydantic_model.model_validate(...)`.
On a `pydantic.ValidationError` the handler evaluates `err.raw_errors`,
which does not exist on a v2 `ValidationError`, so the handler itself
raises `AttributeError` instead of the intended
`RequestValidationError`. -/
def parse_form_data_to_pydantic (vfuel : Nat) (model : PTy)
    (formData : List (String × List Py)) : FormOutcome :=
  match foldFormKeys model formData (.dictV []) with
  | .error e => .httpError 422 e
  | .ok pending =>
    match validateV vfuel model pending with
    | .ok instV => .ok instV
    | .error errs =>
      match getattr_raw_errors ⟨errs⟩ with
      | some es => .requestValidationError es
      | Option.none => .attributeError "raw_errors"

/-- The dispatch outcome of `pydantic_from_request`. -/
inductive ReqRoute where
  | jsonPath : ReqRoute
  | formPath : ReqRoute
  | unsupportedMediaType (contentType : String) : ReqRoute
  | typeError : ReqRoute
deriving BEq, Repr

/-- The content-type dispatch of `pydantic_from_request`:
`request.headers.get("Content-Type")` is `None` when the header is
absent; `None == "application/json"` is `False`, and the `elif`'s
`"multipart/form-data" in content_type` then raises
`TypeError: argument of type 'NoneType' is not iterable`.  A present
header routes to the JSON parser on exact equality, to the form parser
on substring containment, and otherwise raises the 415
`HTTPException`. -/
def pydantic_from_request_route (contentType : Option String) : ReqRoute :=
  match contentType with
  | some ct =>
    if ct = "application/json" then .jsonPath
    else if strContains ct "multipart/form-data" then .formPath
    else .unsupportedMediaType ct
  | Option.none => .typeError

/-! ## Concrete schemas, environments and instances used by the claims -/

/-- A request schema with one sequence-of-int field (`items: List[int]`). -/
def itemsModel : PTy := .model 0 "ItemsRequest" [("items", .listT .intT)]

/-- A request schema with one plain int field. -/
def intModel : PTy := .model 0 "NRequest" [("n", .intT)]

/-- A nested record `B` with an int field `b`. -/
def modelB : PTy := .model 0 "B" [("b", .intT)]

/-- A request schema with one record field `a : B`. -/
def modelA : PTy := .model 1 "A" [("a", modelB)]

/-- The record alternative `X` with an int field `x`. -/
def modelX : PTy := .model 0 "X" [("x", .intT)]

/-- A request schema with a union field declared `{string | RecordX}`,
the string alternative first. -/
def modelUStrFirst : PTy := .model 1 "U" [("u", .unionT [.strT, modelX])]

/-- A request schema with the union declared `{RecordX | string}`, the
record alternative first. -/
def modelURecFirst : PTy := .model 1 "U" [("u", .unionT [modelX, .strT])]

/-- A request schema with one binary (bytes) leaf field. -/
def bytesModel : PTy := .model 0 "Bin" [("data", .bytesT)]

/-- A self-referential data-model class: `R` has a field `next: R`. -/
def envRec : ClassEnv := [("R", [("next", .dataClass "R")])]

/-- Divergence of the Type Mapper on the concrete self-referential class
`R`, starting from the initial registry: no fuel bound makes the call
return, i.e. the Python original never terminates. -/
def mapperDivergesOnRecR : Prop :=
  ∀ fuel : Nat, dataobject_to_pydantic envRec fuel "R" initState = Option.none

/-- A flat, acyclic data-model class `S` with one int field. -/
def envS : ClassEnv := [("S", [("n", .intT)])]

/-- The pydantic model the mapper builds for `S`, and the registry state
it leaves behind. -/
def modelS : PTy := .model 0 "S" [("n", .intT)]

def stateS : MapState :=
  { registry := initState.registry ++ [("S", modelS)],
    reverse := [("S", "S")], counter := 1 }

/-- Data-model classes for the round-trip claims: `X` as above and `M2`
with a scalar field, a nested record field, a list-of-records field and a
map-of-records field. -/
def rtX : PTy := .model 0 "X" [("x", .intT)]

def rtM : PTy :=
  .model 1 "M" [("x", .intT), ("sub", rtX), ("lst", .listT rtX),
                ("m", .mapT .strT rtX)]

/-- Registry state after the mapper has registered `X` and `M`. -/
def rtState : MapState :=
  { registry := initState.registry ++ [("X", rtX), ("M", rtM)],
    reverse := [("X", "X"), ("M", "M")], counter := 2 }

/-- A valid `M` instance whose map field holds a record value. -/
def rtMapInstance : Py :=
  .dmObj "M" [("m", .dictV [("k", .dmObj "X" [("x", .intV 1)])])]

/-- A valid `M` instance with a scalar, a nested record, a list of
records, a plain mixed list, a plain dict and an empty list. -/
def rtGoodInstance : Py :=
  .dmObj "M"
    [("x", .intV 3),
     ("sub", .dmObj "X" [("x", .intV 1)]),
     ("lst", .listV [.dmObj "X" [("x", .intV 2)], .dmObj "X" [("x", .intV 4)]]),
     ("plain", .listV [.intV 1, .strV "a"]),
     ("d", .dictV [("k", .boolV true)]),
     ("empty", .listV [])]

/-! ## The round-trip validity predicate -/

/-- Values containing no data-model or pydantic-model objects (and no
transport objects): scalars, enums, bytes, and lists/dicts thereof.  Both
converters pass such values through unchanged. -/
inductive PlainPy : Py → Prop where
  | noneV : PlainPy .noneV
  | boolV (b : Bool) : PlainPy (.boolV b)
  | intV (n : Int) : PlainPy (.intV n)
  | floatV (lit : String) : PlainPy (.floatV lit)
  | strV (s : String) : PlainPy (.strV s)
  | bytesV (bs : List Nat) : PlainPy (.bytesV bs)
  | enumMember (cls : String) (val : Int) : PlainPy (.enumMember cls val)
  | listV (vs : List Py) : (∀ w ∈ vs, PlainPy w) → PlainPy (.listV vs)
  | dictV (fs : List (String × Py)) : (∀ p ∈ fs, PlainPy p.2) →
      PlainPy (.dictV fs)

/-- The data-model instances for which the round trip through
`fromDataModel` and `pydantic_to_dataobject` restores the original: a
registered, non-alias record each of whose field values is plain, a good
record, or a list of good records.  (Maps over records and deeper nested
record-carrying containers are excluded: `pydantic_to_dataobject`'s field
loop only converts direct model values and homogeneous model lists.) -/
inductive GoodDM (st : MapState) : Bool → Py → Prop where
  | obj (cls : String) (fs : List (String × Py)) :
      cls ∉ aliasNames →
      alookup st.reverse cls = some cls →
      (∀ p ∈ fs, GoodDM st true p.2) →
      GoodDM st false (.dmObj cls fs)
  | fieldObj (v : Py) : GoodDM st false v → GoodDM st true v
  | fieldPlain (v : Py) : PlainPy v → GoodDM st true v
  | fieldList (vs : List Py) : (∀ w ∈ vs, GoodDM st false w) →
      GoodDM st true (.listV vs)

/-! # Theorems -/

theorem alookup_dictSet_self {β : Type} (d : List (String × β)) (k : String) (v : β) :
    alookup (dictSet d k v) k = some v := by
  induction d with
  | nil => simp [dictSet, alookup]
  | cons p rest ih =>
    by_cases h : p.1 = k <;> simp [dictSet, alookup, h, ih]

/-- C1: submitting `items=1`, `items=2` against a sequence-of-int field
does *not* produce `[1, 2]`.  `get_origin` is applied to the candidate
*container* returned by `_get_pydantic_subtypes` (a list instance, whose
origin is always `None`), so `is_list` never becomes true: the fold
writes only the first raw value `"1"`, unlisted, and the final
`model_validate` then rejects the non-list value — whose handler in turn
raises `AttributeError` (see C2). -/
theorem C1_list_folding_failing_input :
    (∀ hints : List PTy, py_get_origin (.tyList hints) = Option.none) ∧
    foldFormKeys itemsModel
        (mkFormData [("items", .strV "1"), ("items", .strV "2")]) (.dictV [])
      = .ok (.dictV [("items", .strV "1")]) ∧
    parse_form_data_to_pydantic 5 itemsModel
        (mkFormData [("items", .strV "1"), ("items", .strV "2")])
      = .attributeError "raw_errors" :=
  ⟨fun _ => rfl, rfl, rfl⟩

/-- C2: a form whose keys all fold but whose assembled object violates
the schema does *not* surface a `RequestValidationError`: the
`except pydantic.ValidationError` handler reads `err.raw_errors`, an
attribute pydantic v2 errors do not have, so the decode dies with
`AttributeError` — even though validation did produce a field-level error
with its full path, as the second conjunct shows. -/
theorem C2_validation_error_handler_failing_input :
    parse_form_data_to_pydantic 5 intModel (mkFormData [("n", .strV "hello")])
      = .attributeError "raw_errors" ∧
    validateV 5 intModel (.dictV [("n", .strV "hello")])
      = .error [⟨["n"], "int_parsing"⟩] :=
  ⟨rfl, rfl⟩

/-- C4 counterexample: submitting both `a.b=1` and `a.b=2` in one request
does not raise `MalformedKeyError`.  Starlette's multi-dict collapses the
repeated key into one `a.b` entry with both raw values (first conjunct);
the decoder processes that key once, writes only the first value, and the
request validates successfully to `b = 1`. -/
theorem C4_duplicate_key_counterexample :
    mkFormData [("a.b", Py.strV "1"), ("a.b", Py.strV "2")]
      = [("a.b", [Py.strV "1", Py.strV "2"])] ∧
    parse_form_data_to_pydantic 5 modelA
        (mkFormData [("a.b", .strV "1"), ("a.b", .strV "2")])
      = .ok (.pyModel "A" [("a", .pyModel "B" [("b", .intV 1)])]) :=
  ⟨rfl, rfl⟩

/-- C4 (amended): a repeated dotted key is folded into a single key whose
extra raw values are silently dropped (previous theorem); the
"value already exists" `MalformedKeyError` (422) arises when two
*distinct* dotted keys target overlapping paths, e.g. `a=1` together with
`a.b=2`. -/
theorem C4_overlapping_keys_value_exists :
    parse_form_data_to_pydantic 5 modelA
        (mkFormData [("a", .strV "1"), ("a.b", .strV "2")])
      = .httpError 422 (.valueExists "a.b") :=
  rfl

/-- C5 counterexample: a request with no `Content-Type` header does not
fail with the 415 `UnsupportedMediaTypeError` — `headers.get` returns
`None` and the `elif "multipart/form-data" in content_type` test raises
`TypeError`. -/
theorem C5_missing_content_type_counterexample :
    pydantic_from_request_route Option.none = .typeError ∧
    (∀ ct : String,
      pydantic_from_request_route Option.none ≠ .unsupportedMediaType ct) :=
  ⟨rfl, fun _ h => ReqRoute.noConfusion h⟩

/-- C5 (amended): with a `Content-Type` header present, the decoder takes
the JSON path exactly on `"application/json"`, the form path exactly when
the value contains the substring `"multipart/form-data"`, and fails with
415 otherwise; with the header absent it raises `TypeError` instead of
the 415. -/
theorem C5_content_type_dispatch :
    (∀ ct, pydantic_from_request_route (some ct) = .jsonPath ↔
      ct = "application/json") ∧
    (∀ ct, pydantic_from_request_route (some ct) = .formPath ↔
      strContains ct "multipart/form-data" = true) ∧
    (∀ ct, ct ≠ "application/json" →
      strContains ct "multipart/form-data" = false →
      pydantic_from_request_route (some ct) = .unsupportedMediaType ct) ∧
    pydantic_from_request_route Option.none = .typeError := by
  refine ⟨fun ct => ?_, fun ct => ?_, fun ct h1 h2 => ?_, rfl⟩
  · constructor
    · intro h
      by_cases hj : ct = "application/json"
      · exact hj
      · by_cases hm : strContains ct "multipart/form-data" = true <;>
          simp [pydantic_from_request_route, hj, hm] at h
    · intro h; simp [pydantic_from_request_route, h]
  · constructor
    · intro h
      by_cases hj : ct = "application/json"
      · subst hj; simp [pydantic_from_request_route] at h
      · by_cases hm : strContains ct "multipart/form-data" = true
        · exact hm
        · simp [pydantic_from_request_route, hj, hm] at h
    · intro h
      have hj : ct ≠ "application/json" := by
        intro he; subst he; exact absurd h (by decide)
      simp [pydantic_from_request_route, hj, h]
  · simp [pydantic_from_request_route, h1, h2]

/-- C5 witness: the dispatch at concrete headers, through the theorem. -/
theorem C5_content_type_dispatch_witness :
    pydantic_from_request_route (some "application/json") = .jsonPath ∧
    pydantic_from_request_route (some "multipart/form-data; boundary=x")
      = .formPath ∧
    pydantic_from_request_route (some "text/plain")
      = .unsupportedMediaType "text/plain" :=
  ⟨(C5_content_type_dispatch.1 "application/json").mpr rfl,
   (C5_content_type_dispatch.2.1 "multipart/form-data; boundary=x").mpr
     (by decide),
   C5_content_type_dispatch.2.2.1 "text/plain" (by decide) (by decide)⟩

/-- C6 counterexample: against the union declared `{string | RecordX}`
(string alternative first, as the claim writes it), the form value
`"{\x22x\x22:1}"` does *not* resolve to the `RecordX` alternative: the
string candidate is tried first, accepts any text without a JSON probe,
and the final smart-union validation keeps the exact string match, so the
field stays the raw JSON text. -/
theorem C6_union_str_first_counterexample :
    parse_form_data_to_pydantic 5 modelUStrFirst
        (mkFormData [("u", .strV "\x7b\"x\":1\x7d")])
      = .ok (.pyModel "U" [("u", .strV "\x7b\"x\":1\x7d")]) ∧
    (Py.strV "\x7b\"x\":1\x7d") ≠ (Py.pyModel "X" [("x", .intV 1)]) :=
  ⟨rfl, fun h => Py.noConfusion h⟩

/-- C6 (amended): JSON-parseability selects the record alternative only
when the record precedes the string in the union's declared order.  With
`{RecordX | string}`, `"hello"` fails the JSON probe and falls through to
the string alternative, while `"{\x22x\x22:1}"` parses and resolves to
`RecordX` with `x = 1`; with `{string | RecordX}` both values resolve to
the string alternative. -/
theorem C6_union_disambiguation_by_order :
    parse_form_data_to_pydantic 5 modelURecFirst
        (mkFormData [("u", .strV "hello")])
      = .ok (.pyModel "U" [("u", .strV "hello")]) ∧
    parse_form_data_to_pydantic 5 modelURecFirst
        (mkFormData [("u", .strV "\x7b\"x\":1\x7d")])
      = .ok (.pyModel "U" [("u", .pyModel "X" [("x", .intV 1)])]) ∧
    parse_form_data_to_pydantic 5 modelUStrFirst
        (mkFormData [("u", .strV "hello")])
      = .ok (.pyModel "U" [("u", .strV "hello")]) :=
  ⟨rfl, rfl, rfl⟩

/-- C7 counterexample: `"????"` is not valid base64 — `'?'` is outside
the alphabet and is not padding (second conjunct) — yet the binary leaf
accepts it: `b64decode` with `validate=False` silently discards the
invalid characters and the field validates to the empty byte string
instead of being rejected. -/
theorem C7_lenient_base64_counterexample :
    validateV 2 bytesModel (.dictV [("data", .strV "????")])
      = .ok (.pyModel "Bin" [("data", .bytesV [])]) ∧
    (b64digit '?').isNone = true ∧ '?' ≠ '=' :=
  ⟨rfl, rfl, by decide⟩

/-- C7 (amended): the binary leaf rejects a text value exactly when
Python's lenient base64 decoder raises, i.e. only when the input ends in
the middle of a quad of data characters; everything the lenient decoder
tolerates — characters outside the alphabet (skipped), bare or excess
padding, data after a completed pad sequence — is silently decoded
rather than rejected.  The concrete conjuncts pin the decoder model to
Python's observed outputs: `"abc"` and `"ab="` raise, while `"????"`,
`"="` and `"===="` give `b""` and `"ab=="`, `"ab==="` and `"ab==cd"`
give `b"i"` (and the well-formed `"aGk="` gives `b"hi"`). -/
theorem C7_base64_rejection_characterization :
    (∀ s, validateV 1 PTy.bytesT (.strV s) =
      (match b64decode s with
       | some bs => .ok (.bytesV bs)
       | Option.none => .error [⟨[], "value_error.base64"⟩])) ∧
    validateV 1 PTy.bytesT (.strV "abc")
      = .error [⟨[], "value_error.base64"⟩] ∧
    b64decode "abc" = Option.none ∧
    b64decode "ab=" = Option.none ∧
    b64decode "????" = some [] ∧
    b64decode "=" = some [] ∧
    b64decode "====" = some [] ∧
    b64decode "ab==" = some [105] ∧
    b64decode "ab===" = some [105] ∧
    b64decode "ab==cd" = some [105] ∧
    b64decode "aGk=" = some [104, 105] := by
  refine ⟨fun s => ?_, rfl, rfl, rfl, rfl, rfl, rfl, rfl, rfl, rfl, rfl⟩
  show validateStep (validateV 0) .bytesT (.strV s) = _
  unfold validateStep from_base64
  cases h : b64decode s <;> simp [h, vfail]

/-- On the self-referential environment, a mapper call on `R` with `R`
still unregistered fails at every fuel: the `annotations` comprehension
recurses into `R`'s own fields *before* any registration happens, so the
registry lookup can never short-circuit the re-entrant call. -/
theorem mapper_rec_unbounded (fuel : Nat) :
    ∀ st : MapState, alookup st.registry "R" = Option.none →
      (mapperFuel envRec fuel).2 "R" st = Option.none ∧
      (mapperFuel envRec fuel).1 (.dataClass "R") st = Option.none := by
  induction fuel with
  | zero => intro st _; exact ⟨rfl, rfl⟩
  | succ fuel ih =>
    intro st h
    have h2 : (mapperFuel envRec (fuel + 1)).2 "R" st = Option.none := by
      show dataobjStep envRec (mapperFuel envRec fuel).1 "R" st = Option.none
      have hg : (mapperFuel envRec fuel).1 (.dataClass "R") st = Option.none :=
        (ih st h).2
      have hth : threadFields (mapperFuel envRec fuel).1
          [("next", DMTy.dataClass "R")] st = Option.none := by
        unfold threadFields
        rw [hg]
        rfl
      unfold dataobjStep
      rw [h]
      show ((threadFields (mapperFuel envRec fuel).1
          [("next", DMTy.dataClass "R")] st).map (registerModel "R")) = Option.none
      rw [hth]
      rfl
    refine ⟨h2, ?_⟩
    show dataobjStep envRec (mapperFuel envRec fuel).1 "R" st = Option.none
    exact h2

/-- C3 counterexample: the Type Mapper does *not* terminate on a
self-referential record: `dataobject_to_pydantic` on the concrete class
`R` (whose single field has type `R`) returns no result at any fuel —
in particular none at fuel 100 — i.e. the Python original recurses
unboundedly instead of being stopped by a registry entry made before the
field recursion. -/
theorem C3_recursive_record_diverges :
    mapperDivergesOnRecR ∧
    dataobject_to_pydantic envRec 100 "R" initState = Option.none :=
  have h : mapperDivergesOnRecR :=
    fun fuel => (mapper_rec_unbounded fuel initState rfl).1
  ⟨h, h 100⟩

/-- C3 (amended): `dataobject_to_pydantic` computes the pydantic types of
all declared fields (recursing into them) *first* and registers the newly
constructed type only afterwards; a non-self-referential record is
therefore built and memoized — here `S` is constructed and its registry
entry is present in the resulting state — while a self-referential record
never terminates (previous theorem). -/
theorem C3_registration_after_field_recursion :
    dataobject_to_pydantic envS 3 "S" initState = some (modelS, stateS) ∧
    alookup stateS.registry "S" = some modelS ∧
    alookup stateS.reverse "S" = some "S" :=
  ⟨rfl, rfl, rfl⟩

/-- A successful mapper call leaves the class registered, bound to the
returned pydantic model (either it was already cached, or the fresh
model was stored by the final registry write). -/
theorem mapper_registers (env : ClassEnv) (fuel : Nat) (c : String)
    (st st' : MapState) (p : PTy)
    (h : dataobject_to_pydantic env fuel c st = some (p, st')) :
    alookup st'.registry c = some p := by
  cases fuel with
  | zero => exact absurd h (by simp [dataobject_to_pydantic, mapperFuel])
  | succ fuel =>
    have h' : dataobjStep env (mapperFuel env fuel).1 c st = some (p, st') := h
    unfold dataobjStep at h'
    split at h'
    · cases h'
      assumption
    · split at h'
      · cases h'
      · obtain ⟨pr, _, hreg2⟩ := Option.map_eq_some'.mp h'
        unfold registerModel at hreg2
        obtain ⟨hp, hst⟩ := Prod.mk.injEq .. ▸ hreg2
        rw [← hst, ← hp]
        exact alookup_dictSet_self ..

/-- C9: once a mapper call has returned a model `p` for a class, every
later call on the same class returns the *same* object `p` — same
construction id, i.e. Python object identity — and leaves the registry
untouched: the first construction was memoized and the later call is
served from the cache lookup at the top of `dataobject_to_pydantic`. -/
theorem C9_second_call_returns_cached (env : ClassEnv) (fuel fuel2 : Nat)
    (c : String) (st st' : MapState) (p : PTy)
    (h : dataobject_to_pydantic env fuel c st = some (p, st')) :
    dataobject_to_pydantic env (fuel2 + 1) c st' = some (p, st') := by
  have hreg := mapper_registers env fuel c st st' p h
  show dataobjStep env (mapperFuel env fuel2).1 c st' = some (p, st')
  unfold dataobjStep
  rw [hreg]

/-- C9 witness: mapping `S` from the initial state builds `modelS`
(construction id 0); a second call from the resulting state returns the
identical object and state. -/
theorem C9_second_call_returns_cached_witness :
    dataobject_to_pydantic envS 3 "S" initState = some (modelS, stateS) ∧
    dataobject_to_pydantic envS 1 "S" stateS = some (modelS, stateS) :=
  ⟨rfl, C9_second_call_returns_cached envS 3 0 "S" initState stateS modelS rfl⟩

/-- C10: with `is_list` false (which it always is: `get_origin` of the
candidate container is `None`), every candidate that accepts a key writes
only the *first* of the processed raw values and silently discards the
rest — `writeBack` stores `raw_objects[0]`, never a list (first
conjunct); in particular, for a form key whose first resolved candidate
is a plain non-sequence scalar type (neither a model class nor `bytes`),
the decoder writes exactly the first raw value unchanged: the outcome
depends only on `raws.headD`, no error is raised for the extra values,
and the only possible failure is the path-collision 422 (second
conjunct). -/
theorem C10_non_sequence_keeps_first_value_only :
    (∀ (pending : Py) (key : String) (raws : List Py),
      writeBack pending key false raws =
        (match update_dict_at_dot_path pending key (raws.headD .noneV) with
         | some pending' => .wrote pending'
         | Option.none => .valueExists)) ∧
    (∀ (model : PTy) (pending : Py) (key : String) (raws : List Py)
      (c : PTy) (rest : List PTy),
      get_pydantic_subtypes (pySplitDot key) model = c :: rest →
      isModelClass c = false → isBytesTy c = false →
      raws ≠ [] → isFalsy (raws.headD .noneV) = false →
      handleKey model pending key raws =
        (match update_dict_at_dot_path pending key (raws.headD .noneV) with
         | some pending' => .ok pending'
         | Option.none => .error (.valueExists key))) := by
  constructor
  · intro pending key raws
    unfold writeBack
    simp only [Bool.false_eq_true, if_false]
  intro model pending key raws c rest hres hnm hnb hne hnf
  unfold handleKey
  rw [hres]
  have hne' : raws.isEmpty = false := by
    cases raws with
    | nil => exact absurd rfl hne
    | cons a l => rfl
  rw [hne', hnf]
  simp only [Bool.or_self, Bool.false_eq_true, if_false, List.isEmpty_cons,
    reduceIte]
  show (match candidateLoop pending key false (c :: rest) raws with
        | .wrote pending' => Except.ok pending'
        | .valueExists => Except.error (DErr.valueExists key)
        | .noParse => Except.error (DErr.failedParse key)) = _
  unfold candidateLoop
  rw [hnm, hnb]
  simp only [Bool.false_eq_true, if_false]
  unfold writeBack
  simp only [Bool.false_eq_true, if_false]
  cases update_dict_at_dot_path pending key (raws.headD .noneV) <;> rfl

/-- C10 witness: the int field `n` receiving raw values `"1"`, `"2"`
stores only `"1"`. -/
theorem C10_non_sequence_keeps_first_value_only_witness :
    handleKey intModel (.dictV []) "n" [.strV "1", .strV "2"]
      = .ok (.dictV [("n", .strV "1")]) :=
  (C10_non_sequence_keeps_first_value_only.2 intModel (.dictV []) "n"
    [.strV "1", .strV "2"] .intT [] rfl rfl rfl (by simp) rfl).trans rfl

/-! ### Round-trip lemmas (C8) -/

theorem fromDataModel_succ (d : Nat) :
    fromDataModel (d + 1) = fdmStep (fromDataModel d) := rfl

theorem pydantic_to_dataobject_succ (st : MapState) (d : Nat) :
    pydantic_to_dataobject st (d + 1)
      = p2dStep (pydantic_to_dataobject st d) st := rfl

/-- Values with no model objects inside have unregistered runtime types. -/
theorem plain_not_registered (st : MapState) (v : Py) (h : PlainPy v) :
    typeRegistered st v = false := by
  cases h <;> rfl

/-- `fromDataModel` is the identity on plain values, from fuel equal to
their depth on. -/
theorem plain_fromDataModel (v : Py) (h : PlainPy v) :
    ∃ N, ∀ e, N ≤ e → fromDataModel e v = some v := by
  induction h with
  | noneV => exact ⟨1, fun e he => by cases e with
      | zero => omega
      | succ d => rfl⟩
  | boolV b => exact ⟨1, fun e he => by cases e with
      | zero => omega
      | succ d => rfl⟩
  | intV n => exact ⟨1, fun e he => by cases e with
      | zero => omega
      | succ d => rfl⟩
  | floatV lit => exact ⟨1, fun e he => by cases e with
      | zero => omega
      | succ d => rfl⟩
  | strV s => exact ⟨1, fun e he => by cases e with
      | zero => omega
      | succ d => rfl⟩
  | bytesV bs => exact ⟨1, fun e he => by cases e with
      | zero => omega
      | succ d => rfl⟩
  | enumMember cls val => exact ⟨1, fun e he => by cases e with
      | zero => omega
      | succ d => rfl⟩
  | listV vs hvs ih =>
    have hlist : ∃ N, ∀ e, N ≤ e → optMapList (fromDataModel e) vs = some vs := by
      clear hvs
      induction vs with
      | nil => exact ⟨0, fun e _ => rfl⟩
      | cons w ws ihl =>
        obtain ⟨N1, h1⟩ := ih w (by simp)
        obtain ⟨N2, h2⟩ := ihl (fun u hu => ih u (by simp [hu]))
        refine ⟨max N1 N2, fun e he => ?_⟩
        unfold optMapList
        rw [h1 e (le_trans (le_max_left ..) he),
            h2 e (le_trans (le_max_right ..) he)]
        rfl
    obtain ⟨N, hN⟩ := hlist
    refine ⟨N + 1, fun e he => ?_⟩
    cases e with
    | zero => omega
    | succ d =>
      show (optMapList (fromDataModel d) vs).map Py.listV = some (.listV vs)
      rw [hN d (by omega)]
      rfl
  | dictV fs hfs ih =>
    have hlist : ∃ N, ∀ e, N ≤ e →
        optMapFields (fromDataModel e) fs = some fs := by
      clear hfs
      induction fs with
      | nil => exact ⟨0, fun e _ => rfl⟩
      | cons p ps ihl =>
        obtain ⟨N1, h1⟩ := ih p (by simp)
        obtain ⟨N2, h2⟩ := ihl (fun u hu => ih u (by simp [hu]))
        refine ⟨max N1 N2, fun e he => ?_⟩
        show (fromDataModel e p.2).bind _ = some (p :: ps)
        rw [h1 e (le_trans (le_max_left ..) he),
            h2 e (le_trans (le_max_right ..) he)]
        rfl
    obtain ⟨N, hN⟩ := hlist
    refine ⟨N + 1, fun e he => ?_⟩
    cases e with
    | zero => omega
    | succ d =>
      show (optMapFields (fromDataModel d) fs).map Py.dictV = some (.dictV fs)
      rw [hN d (by omega)]
      rfl

/-- The field-conversion loop of `pydantic_to_dataobject` passes plain
values through unchanged (for any recursion handle). -/
theorem plain_convFieldStep (st : MapState) (r : Py → Option Py) (v : Py)
    (h : PlainPy v) : convFieldStep r st v = some v := by
  unfold convFieldStep
  rw [plain_not_registered st v h]
  cases h with
  | listV vs hvs =>
    cases vs with
    | nil => rfl
    | cons w ws =>
      have hw : typeRegistered st w = false :=
        plain_not_registered st w (hvs w (by simp))
      simp only [List.all_cons, hw, Bool.false_and, Bool.false_eq_true,
        if_false]
  | noneV => rfl
  | boolV b => rfl
  | intV n => rfl
  | floatV lit => rfl
  | strV s => rfl
  | bytesV bs => rfl
  | enumMember cls val => rfl
  | dictV fs hfs => rfl

/-- The joint induction behind the round trip: a good record value is
sent by `fromDataModel` to a registered pydantic model instance that
`pydantic_to_dataobject` maps back to the original, and a good *field*
value is sent to something the converter's field loop maps back to the
original. -/
theorem goodDM_roundtrip_aux (st : MapState) (b : Bool) (v : Py)
    (h : GoodDM st b v) :
    (b = false →
      ∃ cls gs, alookup st.reverse cls = some cls ∧
        (∃ N, ∀ e, N ≤ e → fromDataModel e v = some (.pyModel cls gs)) ∧
        (∃ N, ∀ e, N ≤ e →
          pydantic_to_dataobject st e (.pyModel cls gs) = some v)) ∧
    (b = true →
      ∃ w', (∃ N, ∀ e, N ≤ e → fromDataModel e v = some w') ∧
        (∃ N, ∀ e, N ≤ e →
          convFieldStep (pydantic_to_dataobject st e) st w' = some v)) := by
  induction h with
  | obj cls fs hal hrev hfs ih =>
    refine ⟨fun _ => ?_, (fun hbt => nomatch hbt)⟩
    have hlist : ∃ gs,
        (∃ N, ∀ e, N ≤ e → optMapFields (fromDataModel e) fs = some gs) ∧
        (∃ N, ∀ e, N ≤ e →
          optMapFields (convFieldStep (pydantic_to_dataobject st e) st) gs
            = some fs) := by
      clear hfs hrev hal
      induction fs with
      | nil => exact ⟨[], ⟨0, fun _ _ => rfl⟩, ⟨0, fun _ _ => rfl⟩⟩
      | cons p ps ihl =>
        obtain ⟨w', ⟨N1, h1⟩, ⟨N2, h2⟩⟩ := (ih p (by simp)).2 rfl
        obtain ⟨gs', ⟨N3, h3⟩, ⟨N4, h4⟩⟩ :=
          ihl (fun q hq => ih q (by simp [hq]))
        refine ⟨(p.1, w') :: gs', ⟨max N1 N3, fun e he => ?_⟩,
          ⟨max N2 N4, fun e he => ?_⟩⟩
        · show (fromDataModel e p.2).bind _ = _
          rw [h1 e (le_trans (le_max_left ..) he),
              h3 e (le_trans (le_max_right ..) he)]
          rfl
        · show (convFieldStep (pydantic_to_dataobject st e) st w').bind _ = _
          rw [h2 e (le_trans (le_max_left ..) he),
              h4 e (le_trans (le_max_right ..) he)]
          rfl
    obtain ⟨gs, ⟨N1, h1⟩, ⟨N2, h2⟩⟩ := hlist
    have hc : aliasNames.contains cls = false := by simp [hal]
    refine ⟨cls, gs, hrev, ⟨N1 + 1, fun e he => ?_⟩,
      ⟨N2 + 1, fun e he => ?_⟩⟩
    · cases e with
      | zero => omega
      | succ d =>
        rw [fromDataModel_succ]
        simp only [fdmStep, hc, Bool.false_eq_true, if_false]
        rw [h1 d (by omega)]
        rfl
    · cases e with
      | zero => omega
      | succ d =>
        rw [pydantic_to_dataobject_succ]
        simp only [p2dStep, hrev, Option.some_bind]
        rw [h2 d (by omega)]
        rfl
  | fieldObj v hv ih =>
    refine ⟨(fun hbf => nomatch hbf), fun _ => ?_⟩
    obtain ⟨cls, gs, hrev, ⟨N1, h1⟩, ⟨N2, h2⟩⟩ := ih.1 rfl
    refine ⟨.pyModel cls gs, ⟨N1, h1⟩, ⟨N2, fun e he => ?_⟩⟩
    simp only [convFieldStep, typeRegistered, hrev, Option.isSome_some,
      if_true]
    exact h2 e he
  | fieldPlain v hp =>
    refine ⟨(fun hbf => nomatch hbf), fun _ => ?_⟩
    obtain ⟨N, hN⟩ := plain_fromDataModel v hp
    exact ⟨v, ⟨N, hN⟩, ⟨0, fun e _ => plain_convFieldStep st _ v hp⟩⟩
  | fieldList vs hvs ih =>
    refine ⟨(fun hbf => nomatch hbf), fun _ => ?_⟩
    have hlist : ∃ ws',
        (∃ N, ∀ e, N ≤ e → optMapList (fromDataModel e) vs = some ws') ∧
        ws'.all (typeRegistered st) = true ∧
        (∃ N, ∀ e, N ≤ e →
          optMapList (pydantic_to_dataobject st e) ws' = some vs) := by
      clear hvs
      induction vs with
      | nil => exact ⟨[], ⟨0, fun _ _ => rfl⟩, rfl, ⟨0, fun _ _ => rfl⟩⟩
      | cons w ws ihl =>
        obtain ⟨cls, gs, hrev, ⟨N1, h1⟩, ⟨N2, h2⟩⟩ := (ih w (by simp)).1 rfl
        obtain ⟨ws', ⟨N3, h3⟩, hall, ⟨N4, h4⟩⟩ :=
          ihl (fun u hu => ih u (by simp [hu]))
        refine ⟨.pyModel cls gs :: ws', ⟨max N1 N3, fun e he => ?_⟩, ?_,
          ⟨max N2 N4, fun e he => ?_⟩⟩
        · show (fromDataModel e w).bind _ = _
          rw [h1 e (le_trans (le_max_left ..) he),
              h3 e (le_trans (le_max_right ..) he)]
          rfl
        · simp only [List.all_cons, hall, typeRegistered, hrev,
            Option.isSome_some, Bool.and_true]
        · show (pydantic_to_dataobject st e (.pyModel cls gs)).bind _ = _
          rw [h2 e (le_trans (le_max_left ..) he),
              h4 e (le_trans (le_max_right ..) he)]
          rfl
    obtain ⟨ws', ⟨N3, h3⟩, hall, ⟨N4, h4⟩⟩ := hlist
    refine ⟨.listV ws', ⟨N3 + 1, fun e he => ?_⟩, ⟨N4, fun e he => ?_⟩⟩
    · cases e with
      | zero => omega
      | succ d =>
        show (optMapList (fromDataModel d) vs).map Py.listV = some (.listV ws')
        rw [h3 d (by omega)]
        rfl
    · simp only [convFieldStep, typeRegistered, hall, if_true,
        Bool.false_eq_true, if_false]
      rw [h4 e he]
      rfl

/-- C8 counterexample: a map (proto `map<string, X>`) field whose values
are record instances breaks the round trip.  `pydantic_to_dataobject`'s
field loop converts only direct model values and homogeneous model lists;
a dict passes through unchanged, so the pydantic model instances inside
it survive into the rebuilt data-model object, which therefore differs
from the original instance. -/
theorem C8_map_of_records_counterexample :
    (fromDataModel 10 rtMapInstance).bind (pydantic_to_dataobject rtState 10)
      = some (.dmObj "M"
          [("m", .dictV [("k", .pyModel "X" [("x", .intV 1)])])]) ∧
    some (Py.dmObj "M" [("m", .dictV [("k", .pyModel "X" [("x", .intV 1)])])])
      ≠ some rtMapInstance :=
  ⟨rfl, by simp [rtMapInstance]⟩

/-- C8 (amended): the round trip `pydantic_to_dataobject ∘ fromDataModel`
is the identity on every valid instance in which data-model objects occur
only as direct field values or as elements of a list field — i.e.
excluding, besides the claim's own primitive-sequence alias exclusion,
fields that nest record values inside maps or inside deeper containers
(see the counterexample). -/
theorem C8_roundtrip_on_good_instances (st : MapState) (v : Py)
    (h : GoodDM st false v) :
    ∃ N, ∀ f, N ≤ f →
      (fromDataModel f v).bind (pydantic_to_dataobject st f) = some v := by
  obtain ⟨cls, gs, _, ⟨N1, h1⟩, ⟨N2, h2⟩⟩ :=
    (goodDM_roundtrip_aux st false v h).1 rfl
  refine ⟨max N1 N2, fun f hf => ?_⟩
  rw [h1 f (le_trans (le_max_left ..) hf), Option.some_bind]
  exact h2 f (le_trans (le_max_right ..) hf)

/-- C8 witness: a concrete valid instance with a scalar field, a nested
record, a list of records, a mixed plain list, a plain dict and an empty
list, round-tripped through the converters. -/
theorem C8_roundtrip_on_good_instances_witness :
    GoodDM rtState false rtGoodInstance ∧
    (∃ N, ∀ f, N ≤ f →
      (fromDataModel f rtGoodInstance).bind (pydantic_to_dataobject rtState f)
        = some rtGoodInstance) ∧
    (fromDataModel 10 rtGoodInstance).bind (pydantic_to_dataobject rtState 10)
      = some rtGoodInstance := by
  have hX1 : GoodDM rtState false (.dmObj "X" [("x", .intV 1)]) := by
    refine GoodDM.obj "X" _ (by decide) rfl ?_
    intro p hp
    simp only [List.mem_singleton] at hp
    subst hp
    exact GoodDM.fieldPlain _ (PlainPy.intV 1)
  have hX2 : GoodDM rtState false (.dmObj "X" [("x", .intV 2)]) := by
    refine GoodDM.obj "X" _ (by decide) rfl ?_
    intro p hp
    simp only [List.mem_singleton] at hp
    subst hp
    exact GoodDM.fieldPlain _ (PlainPy.intV 2)
  have hX4 : GoodDM rtState false (.dmObj "X" [("x", .intV 4)]) := by
    refine GoodDM.obj "X" _ (by decide) rfl ?_
    intro p hp
    simp only [List.mem_singleton] at hp
    subst hp
    exact GoodDM.fieldPlain _ (PlainPy.intV 4)
  have hg : GoodDM rtState false rtGoodInstance := by
    refine GoodDM.obj "M" _ (by decide) rfl ?_
    intro p hp
    simp only [rtGoodInstance, List.mem_cons, List.not_mem_nil, or_false]
      at hp
    rcases hp with h | h | h | h | h | h <;> subst h
    · exact GoodDM.fieldPlain _ (PlainPy.intV 3)
    · exact GoodDM.fieldObj _ hX1
    · refine GoodDM.fieldList _ ?_
      intro w hw
      simp only [List.mem_cons, List.not_mem_nil, or_false] at hw
      rcases hw with h | h <;> subst h
      · exact hX2
      · exact hX4
    · refine GoodDM.fieldPlain _ (PlainPy.listV _ ?_)
      intro w hw
      simp only [List.mem_cons, List.not_mem_nil, or_false] at hw
      rcases hw with h | h <;> subst h
      · exact PlainPy.intV 1
      · exact PlainPy.strV "a"
    · refine GoodDM.fieldPlain _ (PlainPy.dictV _ ?_)
      intro q hq
      simp only [List.mem_singleton] at hq
      subst hq
      exact PlainPy.boolV true
    · exact GoodDM.fieldPlain _ (PlainPy.listV [] (by intro w hw; cases hw))
  exact ⟨hg, C8_roundtrip_on_good_instances rtState rtGoodInstance hg, rfl⟩
